import Mathlib

/-!
Verification of the `labs-alone/vae` vision-analytics core: a shallow
embedding of the Detector (multi-model detection, pooling, suppression),
the Pipeline worker loop and per-stage metrics, the Engine lifecycle and
worker loop, and the StateManager's bounded histories, together with
theorems settling the specification claims about them.

Floating-point values of the source (`f32`, `f64`) are embedded as `ℚ`;
timestamps as `ℕ`; opaque external buffers (`Mat`) as an abstract id.
Locks are erased: each operation is a pure state transformer.
-/

/-! ## Vision data model (src/vision/processor.rs, detector.rs, analyzer.rs) -/

/-- Frame metadata (src/vision/processor.rs, `FrameMetadata`). -/
structure FrameMetadata where
  width : Nat
  height : Nat
  channels : Nat
  format : String
  source : String
deriving DecidableEq, Repr

/-- A video frame (src/vision/processor.rs, `Frame`).  The `Arc<Mat>` image
buffer is opaque external data; it is embedded as an abstract identifier. -/
structure Frame where
  id : Nat
  timestamp : Nat
  data : Nat
  metadata : FrameMetadata
deriving DecidableEq, Repr

/-- Axis-aligned bounding box (src/vision/detector.rs, `BBox`). -/
structure BBox where
  x : ℚ
  y : ℚ
  width : ℚ
  height : ℚ
deriving DecidableEq, Repr

/-- One detection (src/vision/detector.rs, `Detection`). -/
structure Detection where
  bbox : BBox
  class_id : Nat
  class_name : String
  confidence : ℚ
  frame_id : Nat
  timestamp : Nat
deriving DecidableEq, Repr

/-- Per-model configuration (src/vision/detector.rs, `ModelConfig`); only the
fields the detection path reads are kept (the path/framework/input size are
consumed by the external model loader). -/
structure ModelConfig where
  name : String
  class_names : List String
deriving DecidableEq, Repr

/-- Detector configuration (src/vision/detector.rs, `DetectorConfig`); the
device, batch and detector-type fields are not read on the detection path. -/
structure DetectorConfig where
  confidence_threshold : ℚ
  nms_threshold : ℚ
  model_configs : List ModelConfig
deriving DecidableEq, Repr

/-- Analysis result skeleton (src/vision/analyzer.rs, `Analysis`); its
sub-reports are produced by the external analyzer and are irrelevant to the
core claims, so only the identifying fields are kept. -/
structure Analysis where
  frame_id : Nat
  timestamp : Nat
deriving DecidableEq, Repr

/-! ## Detector (src/vision/detector.rs) -/

/-- One raw output row of a model, interpreted by `process_outputs` as
`[x, y, w, h, objectness, class_id, ...]` (src/vision/detector.rs lines
164-172).  The `class_id` column is read and cast to `usize` in the source;
it is embedded already cast. -/
structure RawRow where
  x : ℚ
  y : ℚ
  w : ℚ
  h : ℚ
  objectness : ℚ
  class_id : Nat
deriving DecidableEq, Repr

/-- Detector errors (the `anyhow` error values the detector itself creates). -/
inductive DetError where
  | classNotFound (class_id : Nat)
deriving DecidableEq, Repr

/-- `Detector::get_class_name` (src/vision/detector.rs lines 230-236): look the
class id up in the first model config's class list. -/
def get_class_name (cfg : DetectorConfig) (class_id : Nat) : Except DetError String :=
  match cfg.model_configs.head? with
  | none => .error (.classNotFound class_id)
  | some mc =>
    match mc.class_names.get? class_id with
    | none => .error (.classNotFound class_id)
    | some n => .ok n

/-- `Detector::process_outputs` (src/vision/detector.rs lines 160-188): keep a
row when its objectness strictly exceeds `confidence_threshold`, building a
`Detection` from its columns; a class-name lookup failure aborts the frame. -/
def process_outputs (cfg : DetectorConfig) (outputs : List RawRow) (frame : Frame) :
    Except DetError (List Detection) :=
  match outputs with
  | [] => .ok []
  | r :: rest =>
    if r.objectness > cfg.confidence_threshold then
      match get_class_name cfg r.class_id with
      | .error e => .error e
      | .ok cname =>
        match process_outputs cfg rest frame with
        | .error e => .error e
        | .ok ds =>
          .ok ({ bbox := { x := r.x, y := r.y, width := r.w, height := r.h }
               , class_id := r.class_id
               , class_name := cname
               , confidence := r.objectness
               , frame_id := frame.id
               , timestamp := frame.timestamp } :: ds)
    else process_outputs cfg rest frame

/-- Intersection area of two axis-aligned boxes. -/
def interArea (a b : BBox) : ℚ :=
  max 0 (min (a.x + a.width) (b.x + b.width) - max a.x b.x) *
    max 0 (min (a.y + a.height) (b.y + b.height) - max a.y b.y)

/-- IoU of two axis-aligned boxes: intersection area over union area
(`ℚ` division is total with division by zero yielding zero). -/
def iou (a b : BBox) : ℚ :=
  let i := interArea a b
  i / (a.width * a.height + b.width * b.height - i)

/-- Insert a detection into a list kept in descending confidence order. -/
def insertDesc (d : Detection) : List Detection → List Detection
  | [] => [d]
  | e :: rest =>
    if e.confidence ≤ d.confidence then d :: e :: rest else e :: insertDesc d rest

/-- Sort a detection list by descending confidence (insertion sort). -/
def sortByConfDesc : List Detection → List Detection
  | [] => []
  | d :: rest => insertDesc d (sortByConfDesc rest)

/-- Greedy suppression pass on a list already sorted by descending confidence:
take the head into the output and drop every remaining detection whose IoU
with it is ≥ the threshold. -/
def nmsGreedy (thr : ℚ) : List Detection → List Detection
  | [] => []
  | d :: rest =>
    d :: nmsGreedy thr (rest.filter (fun e => iou d.bbox e.bbox < thr))
termination_by l => l.length
decreasing_by
  simp only [List.length_cons]
  exact Nat.lt_succ_of_le (List.length_filter_le _ _)

/-- Modelled from the spec: the suppression routine `dnn::nms_boxes` invoked by
`Detector::apply_nms` (src/vision/detector.rs lines 211-219) is an external
OpenCV call whose code is not in this repository.  The spec defines the
suppression algorithm: sort pooled detections descending by confidence, then
repeatedly take the highest-confidence remaining detection into the output and
remove every remaining detection whose IoU with it is ≥ `nms_threshold`.  The
`score_threshold` argument the source passes is kept for signature fidelity;
the spec's algorithm does not use it. -/
def nms_boxes (_score_threshold nms_threshold : ℚ) (dets : List Detection) :
    List Detection :=
  nmsGreedy nms_threshold (sortByConfDesc dets)

/-- `Detector::apply_nms` (src/vision/detector.rs lines 190-228): an empty
input is returned unchanged; otherwise the boxes and scores are handed to the
suppression routine and the kept detections are returned. -/
def apply_nms (cfg : DetectorConfig) (dets : List Detection) : List Detection :=
  if dets.isEmpty then dets
  else nms_boxes cfg.confidence_threshold cfg.nms_threshold dets

/-- The index-consumption step of `Detector::apply_nms` (src/vision/detector.rs
lines 222-225) taken on its own: the `i32` indices returned by the external
suppression routine are cast to `usize` and used to index the input vector
with no bounds check.  A negative index wraps to a huge `usize`, and an index
at or past the length panics; both are embedded as `none`. -/
def apply_nms_select (dets : List Detection) (indices : List Int) :
    Option (List Detection) :=
  match indices with
  | [] => some []
  | i :: rest =>
    match (if 0 ≤ i then dets[i.toNat]? else none) with
    | none => none
    | some d =>
      match apply_nms_select dets rest with
      | none => none
      | some ds => some (d :: ds)

/-- Pool the per-model kept rows across all models, in model order
(src/vision/detector.rs lines 99-104: `all_detections.extend`). -/
def pool_outputs (cfg : DetectorConfig) (frame : Frame) :
    List (List RawRow) → Except DetError (List Detection)
  | [] => .ok []
  | o :: os =>
    match process_outputs cfg o frame with
    | .error e => .error e
    | .ok ds =>
      match pool_outputs cfg frame os with
      | .error e => .error e
      | .ok rest => .ok (ds ++ rest)

/-- `Detector::detect` (src/vision/detector.rs lines 98-114): run every model
on the frame (here: each model's raw output rows are given), pool the kept
rows, then apply suppression.  The detection counter is telemetry and not
part of the returned value. -/
def detect (cfg : DetectorConfig) (frame : Frame) (model_outputs : List (List RawRow)) :
    Except DetError (List Detection) :=
  match pool_outputs cfg frame model_outputs with
  | .error e => .error e
  | .ok all => .ok (apply_nms cfg all)

/-! ## Pipeline (src/core/pipeline.rs) -/

/-- Stage kind (src/core/pipeline.rs, `StageType`). -/
inductive StageType where
  | PreProcess
  | Detection
  | Analysis
  | Inference
  | PostProcess
deriving DecidableEq, Repr

/-- Per-stage configuration (src/core/pipeline.rs, `StageConfig`). -/
structure StageConfig where
  name : String
  stage_type : StageType
  enabled : Bool
  params : List (String × String)
deriving DecidableEq, Repr

/-- Pipeline configuration (src/core/pipeline.rs, `PipelineConfig`). -/
structure PipelineConfig where
  stages : List StageConfig
  max_parallel_stages : Nat
  buffer_size : Nat
  timeout_ms : Nat
  retry_count : Nat
deriving DecidableEq, Repr

/-- The item flowing through the pipeline (src/core/pipeline.rs,
`PipelineData`). -/
structure PipelineData where
  frame : Frame
  detections : List Detection
  analysis : Option Analysis
  metadata : List (String × String)
  timestamp : Nat
deriving DecidableEq, Repr

/-- A stage failure (`anyhow` error of a stage's `process`); its payload is
irrelevant to the worker loop, which only logs it. -/
structure StageErr where
  message : String
deriving DecidableEq, Repr

/-- A constructed pipeline stage.  `process` is dynamic behaviour behind the
`PipelineStage` trait object; it is embedded as a function of the number of
times this stage has been invoked so far (so that environments such as
"fails twice then succeeds" are expressible) and the input item.  `create_stage`
(src/core/pipeline.rs lines 225-233) builds one such stage per `StageConfig`,
whatever the `enabled` flag says. -/
structure StageRt where
  config : StageConfig
  behavior : Nat → PipelineData → Except StageErr PipelineData

/-- Per-stage metrics (src/core/pipeline.rs, `StageMetrics`). -/
structure StageMetrics where
  processed : Nat
  errors : Nat
  avg_processing_time : ℚ
  last_processed : Nat
deriving DecidableEq, Repr

/-- `update_metrics` (src/core/pipeline.rs lines 198-214): find or insert the
stage's metrics entry (inserted zeroed, timestamped now), then increment
`processed` on success or `errors` on failure and stamp `last_processed`.
The `HashMap` is embedded as an association list keyed by stage name. -/
def update_metrics (m : List (String × StageMetrics)) (stage_name : String)
    (success : Bool) (now : Nat) : List (String × StageMetrics) :=
  match m with
  | [] =>
    let fresh : StageMetrics :=
      { processed := 0, errors := 0, avg_processing_time := 0, last_processed := now }
    let bumped :=
      if success then { fresh with processed := fresh.processed + 1 }
      else { fresh with errors := fresh.errors + 1 }
    [(stage_name, { bumped with last_processed := now })]
  | (k, v) :: rest =>
    if k = stage_name then
      let bumped :=
        if success then { v with processed := v.processed + 1 }
        else { v with errors := v.errors + 1 }
      (k, { bumped with last_processed := now }) :: rest
    else (k, v) :: update_metrics rest stage_name success now

/-- The mutable execution state a pipeline worker touches while driving items:
the shared per-stage metrics map, plus the per-stage invocation counts that
parameterize the dynamic stage behaviours. -/
structure PipeExecState where
  metrics : List (String × StageMetrics)
  counts : List (String × Nat)
deriving DecidableEq, Repr

/-- Pipeline execution state at construction: no metrics entries, no calls. -/
def pipeExecInit : PipeExecState := { metrics := [], counts := [] }

/-- Number of times the named stage has been invoked so far. -/
def getCount (counts : List (String × Nat)) (stage_name : String) : Nat :=
  match counts with
  | [] => 0
  | (k, v) :: rest => if k = stage_name then v else getCount rest stage_name

/-- Record one more invocation of the named stage. -/
def bumpCount (counts : List (String × Nat)) (stage_name : String) :
    List (String × Nat) :=
  match counts with
  | [] => [(stage_name, 1)]
  | (k, v) :: rest =>
    if k = stage_name then (k, v + 1) :: rest
    else (k, v) :: bumpCount rest stage_name

/-- The body of the pipeline worker loop for one item (src/core/pipeline.rs
lines 147-160): drive the item through the full stage chain in order; a
successful `process` call replaces the item and counts one processed for that
stage; a failed call counts one error for that stage and breaks the chain,
yielding nothing for the item.  Every constructed stage is invoked; no field
of its `StageConfig` (in particular `enabled`) is consulted, and no retry is
attempted (`retry_count` and `timeout_ms` are never read by the loop). -/
def process_item (stages : List StageRt) (st : PipeExecState)
    (data : PipelineData) (now : Nat) : Option PipelineData × PipeExecState :=
  match stages with
  | [] => (some data, st)
  | s :: rest =>
    let n := getCount st.counts s.config.name
    let st1 : PipeExecState := { st with counts := bumpCount st.counts s.config.name }
    match s.behavior n data with
    | .ok processed_data =>
      let st2 : PipeExecState :=
        { st1 with metrics := update_metrics st1.metrics s.config.name true now }
      process_item rest st2 processed_data now
    | .error _ =>
      (none, { st1 with metrics := update_metrics st1.metrics s.config.name false now })

/-- Pipeline lifecycle state (src/core/pipeline.rs, `PipelineState`). -/
structure PipelineState where
  is_running : Bool
  processed_frames : Nat
  errors : Nat
  stage_metrics : List (String × StageMetrics)
  start_time : Nat
deriving DecidableEq, Repr

/-- `Pipeline::start` (src/core/pipeline.rs lines 111-123): when already
running, return success at once; otherwise set the running flag, record the
start time and spawn the workers.  The returned flag records whether workers
were spawned by this call. -/
def Pipeline.start (st : PipelineState) (now : Nat) : PipelineState × Bool :=
  if st.is_running then (st, false)
  else ({ st with is_running := true, start_time := now }, true)

/-- `Pipeline::stop` (src/core/pipeline.rs lines 125-135): when not running,
return success at once; otherwise clear the running flag.  The returned flag
records whether this call changed the state. -/
def Pipeline.stop (st : PipelineState) : PipelineState × Bool :=
  if !st.is_running then (st, false)
  else ({ st with is_running := false }, true)

/-- The pipeline state built by `Pipeline::new` (src/core/pipeline.rs lines
92-98). -/
def pipelineStateInit (now : Nat) : PipelineState :=
  { is_running := false, processed_frames := 0, errors := 0
  , stage_metrics := [], start_time := now }

/-! ## Engine (src/core/engine.rs) -/

/-- Engine configuration (src/core/engine.rs, `EngineConfig`). -/
structure EngineConfig where
  max_batch_size : Nat
  processing_threads : Nat
  enable_gpu : Bool
  model_precision : String
  detection_threshold : ℚ
  enable_analytics : Bool
deriving DecidableEq, Repr

/-- One processing result (src/core/engine.rs, `ProcessingResult`); the
inference payload is external and embedded opaquely. -/
structure ProcessingResult where
  frame_id : Nat
  detections : List Detection
  analysis : Option Analysis
  inference : Option Nat
  timestamp : Nat
deriving DecidableEq, Repr

/-- Engine lifecycle state (src/core/engine.rs, `EngineState`). -/
structure EngineState where
  is_running : Bool
  frames_processed : Nat
  error_count : Nat
  last_error : Option String
  start_time : Nat
deriving DecidableEq, Repr

/-- The engine state built inside `Engine::new` (src/core/engine.rs lines
84-90). -/
def engineStateInit (now : Nat) : EngineState :=
  { is_running := false, frames_processed := 0, error_count := 0
  , last_error := none, start_time := now }

/-- A bounded tokio mpsc channel seen from its sender side: buffered items,
capacity, and whether the receiving half is still alive (dropping every
receiver closes the channel and makes every send fail). -/
structure Channel (α : Type) where
  capacity : Nat
  items : List α
  receiver_alive : Bool
deriving Repr

/-- Outcome of a bounded `send`: the channel is closed (receiver dropped),
the send suspends because the buffer is full, or the item is enqueued. -/
inductive SendResult (α : Type) where
  | closed
  | wouldSuspend
  | sent (q : Channel α)

/-- `Sender::send` on a bounded tokio mpsc channel: fails at once when every
receiver is gone; otherwise suspends while the buffer is full, then enqueues. -/
def Channel.send (q : Channel α) (a : α) : SendResult α :=
  if !q.receiver_alive then .closed
  else if q.capacity ≤ q.items.length then .wouldSuspend
  else .sent { q with items := q.items ++ [a] }

/-- The engine as built by `Engine::new` (src/core/engine.rs lines 67-94):
`tx` of the frame channel is stored as `processing_queue`, `result_rx` is
stored as `result_channel`, but the frame receiver `rx` is never stored nor
passed anywhere, so it is dropped when `new` returns — the frame channel is
closed from birth.  The GPU manager and frame processor are external
collaborators and are not part of the state. -/
structure EngineModel where
  config : EngineConfig
  input_queue : Channel Frame
  state : EngineState
deriving Repr

/-- `Engine::new` (src/core/engine.rs lines 67-94). -/
def Engine.new (cfg : EngineConfig) (now : Nat) : EngineModel :=
  { config := cfg
  , input_queue :=
      { capacity := cfg.max_batch_size, items := [], receiver_alive := false }
  , state := engineStateInit now }

/-- `Engine::start` (src/core/engine.rs lines 96-108): when already running,
return success at once; otherwise set the running flag, record the start time
and spawn the workers.  The returned flag records whether workers were
spawned by this call. -/
def Engine.start (st : EngineState) (now : Nat) : EngineState × Bool :=
  if st.is_running then (st, false)
  else ({ st with is_running := true, start_time := now }, true)

/-- `Engine::stop` (src/core/engine.rs lines 110-122): when not running,
return success at once; otherwise clear the running flag and release GPU
resources.  The returned flag records whether cleanup ran. -/
def Engine.stop (st : EngineState) : EngineState × Bool :=
  if !st.is_running then (st, false)
  else ({ st with is_running := false }, true)

/-- `Engine::process_frame` (src/core/engine.rs lines 124-128): send the frame
on the processing queue.  No running-state precondition is checked: the
engine state is not consulted at all. -/
def Engine.process_frame (e : EngineModel) (f : Frame) : SendResult Frame :=
  e.input_queue.send f

/-- The outcome of one engine worker run (the spawned loop of
`initialize_workers`): the lifecycle state as the worker left it, how many
frames it attempted, and the error messages it logged. -/
structure WorkerRun where
  state : EngineState
  attempts : Nat
  logged : List String
deriving DecidableEq, Repr

/-- The engine worker loop body (src/core/engine.rs lines 140-146), with the
queue pull embedded as iteration over the frames the worker receives: each
frame is handed to the frame processor; a failure is logged and the loop
continues with the next frame.  The loop never touches the shared
`EngineState` (its closure does not even capture it): no counter is
incremented and no error is recorded there, on success or on failure. -/
def engine_worker_loop (proc : Frame → Except String ProcessingResult)
    (frames : List Frame) (st : EngineState) : WorkerRun :=
  match frames with
  | [] => { state := st, attempts := 0, logged := [] }
  | f :: rest =>
    match proc f with
    | .ok _ =>
      let r := engine_worker_loop proc rest st
      { r with attempts := r.attempts + 1 }
    | .error e =>
      let r := engine_worker_loop proc rest st
      { r with attempts := r.attempts + 1, logged := e :: r.logged }

/-! ## StateManager (src/core/state.rs)

The `EngineState`/`PipelineState`/`StageMetrics` structs of state.rs are
distinct from the private ones of engine.rs/pipeline.rs; they are embedded
with an `SM` prefix. -/

/-- Engine status (src/core/state.rs, `EngineStatus`). -/
inductive EngineStatus where
  | Starting
  | Running
  | Paused
  | Stopping
  | Stopped
  | Error
deriving DecidableEq, Repr

/-- Engine partition of the aggregate state (src/core/state.rs,
`EngineState`). -/
structure SMEngineState where
  status : EngineStatus
  frames_processed : Nat
  fps : ℚ
  uptime : Int
  last_active : Nat
deriving DecidableEq, Repr

/-- Per-stage metrics as aggregated by the state manager (src/core/state.rs,
`StageMetrics`). -/
structure SMStageMetrics where
  processed_items : Nat
  errors : Nat
  average_time : ℚ
  last_processed : Nat
deriving DecidableEq, Repr

/-- Pipeline partition of the aggregate state (src/core/state.rs,
`PipelineState`). -/
structure SMPipelineState where
  active_stages : List String
  stage_metrics : List (String × SMStageMetrics)
  queue_size : Nat
  processing_latency : ℚ
deriving DecidableEq, Repr

/-- Resource partition of the aggregate state (src/core/state.rs,
`ResourceState`). -/
structure SMResourceState where
  gpu_usage : ℚ
  memory_usage : ℚ
  cpu_usage : ℚ
  disk_usage : ℚ
  temperature : ℚ
deriving DecidableEq, Repr

/-- One recorded error (src/core/state.rs, `ErrorInfo`). -/
structure ErrorInfo where
  timestamp : Nat
  error_type : String
  message : String
  context : List (String × String)
deriving DecidableEq, Repr

/-- Error partition of the aggregate state (src/core/state.rs,
`ErrorState`). -/
structure SMErrorState where
  error_count : Nat
  last_error : Option ErrorInfo
  error_history : List ErrorInfo
deriving DecidableEq, Repr

/-- The aggregate system state (src/core/state.rs, `SystemState`). -/
structure SystemState where
  engine_state : SMEngineState
  pipeline_state : SMPipelineState
  resource_state : SMResourceState
  error_state : SMErrorState
deriving DecidableEq, Repr

/-- One snapshot (src/core/state.rs, `StateSnapshot`). -/
structure StateSnapshot where
  timestamp : Nat
  state : SystemState
deriving DecidableEq, Repr

/-- State manager configuration (src/core/state.rs, `StateConfig`). -/
structure StateConfig where
  history_size : Nat
  snapshot_interval : Int
  persist_state : Bool
  state_file : String
deriving DecidableEq, Repr

/-- The state manager (src/core/state.rs, `StateManager`), locks erased. -/
structure StateManager where
  state : SystemState
  history : List StateSnapshot
  config : StateConfig
deriving DecidableEq, Repr

/-- The initial aggregate state built by `StateManager::new`
(src/core/state.rs lines 97-123). -/
def systemStateInit (now : Nat) : SystemState :=
  { engine_state :=
      { status := .Stopped, frames_processed := 0, fps := 0
      , uptime := 0, last_active := now }
  , pipeline_state :=
      { active_stages := [], stage_metrics := []
      , queue_size := 0, processing_latency := 0 }
  , resource_state :=
      { gpu_usage := 0, memory_usage := 0, cpu_usage := 0
      , disk_usage := 0, temperature := 0 }
  , error_state :=
      { error_count := 0, last_error := none, error_history := [] } }

/-- `StateManager::new` (src/core/state.rs lines 96-135): fresh state, empty
history.  The background monitor it spawns is embedded as the `monitorTick`
operation below. -/
def StateManager.new (cfg : StateConfig) (now : Nat) : StateManager :=
  { state := systemStateInit now, history := [], config := cfg }

/-- The `while history.len() > history_size` trim loop of `take_snapshot`
(src/core/state.rs lines 189-191): remove the front (oldest) entry until the
length is within bound. -/
def trimHistory (hs : List StateSnapshot) (size : Nat) : List StateSnapshot :=
  if size < hs.length then trimHistory (hs.drop 1) size else hs
termination_by hs.length
decreasing_by
  cases hs with
  | nil => simp at *
  | cons x xs => simp

/-- `StateManager::take_snapshot` (src/core/state.rs lines 178-198): clone and
timestamp the current state, append it to the history, trim the history to
`history_size` evicting oldest first.  Persistence writes the state to an
external file and does not change the manager. -/
def take_snapshot (m : StateManager) (now : Nat) : StateManager :=
  let snapshot : StateSnapshot := { timestamp := now, state := m.state }
  { m with history := trimHistory (m.history ++ [snapshot]) m.config.history_size }

/-- `StateManager::update_engine_state` (src/core/state.rs lines 137-142):
replace the engine partition, then take a snapshot.  (In the source the
nested lock acquisition is a deadlock hazard; the lock-erased embedding
performs the two steps in sequence.) -/
def update_engine_state (m : StateManager) (es : SMEngineState) (now : Nat) :
    StateManager :=
  take_snapshot { m with state := { m.state with engine_state := es } } now

/-- `StateManager::update_pipeline_state` (src/core/state.rs lines 144-148). -/
def update_pipeline_state (m : StateManager) (ps : SMPipelineState) : StateManager :=
  { m with state := { m.state with pipeline_state := ps } }

/-- `StateManager::update_resource_state` (src/core/state.rs lines 150-154). -/
def update_resource_state (m : StateManager) (rs : SMResourceState) : StateManager :=
  { m with state := { m.state with resource_state := rs } }

/-- `StateManager::record_error` (src/core/state.rs lines 156-168): increment
the error count, set `last_error`, push the error onto the history, then if
the history now holds more than 100 entries remove the oldest one. -/
def record_error (m : StateManager) (e : ErrorInfo) : StateManager :=
  let es := m.state.error_state
  let pushed : SMErrorState :=
    { error_count := es.error_count + 1
    , last_error := some e
    , error_history := es.error_history ++ [e] }
  let trimmed : SMErrorState :=
    if 100 < pushed.error_history.length then
      { pushed with error_history := pushed.error_history.drop 1 }
    else pushed
  { m with state := { m.state with error_state := trimmed } }

/-- One tick of the background monitor (src/core/state.rs lines 216-233):
overwrite the resource partition with freshly sampled values and, when the
engine status is Running, advance uptime by the snapshot interval. -/
def monitorTick (m : StateManager) (sampled : SMResourceState) : StateManager :=
  let st1 := { m.state with resource_state := sampled }
  let st2 :=
    if st1.engine_state.status = .Running then
      { st1 with engine_state :=
          { st1.engine_state with uptime := st1.engine_state.uptime + m.config.snapshot_interval } }
    else st1
  { m with state := st2 }

/-- One public state-manager operation (the mutating calls of
src/core/state.rs, plus a monitor tick). -/
inductive StateOp where
  | updateEngine (es : SMEngineState) (now : Nat)
  | updatePipeline (ps : SMPipelineState)
  | updateResource (rs : SMResourceState)
  | recordError (e : ErrorInfo)
  | tick (sampled : SMResourceState)

/-- Apply one state-manager operation. -/
def applyOp (m : StateManager) : StateOp → StateManager
  | .updateEngine es now => update_engine_state m es now
  | .updatePipeline ps => update_pipeline_state m ps
  | .updateResource rs => update_resource_state m rs
  | .recordError e => record_error m e
  | .tick sampled => monitorTick m sampled

/-- Apply a sequence of state-manager operations in order. -/
def applyOps (m : StateManager) (ops : List StateOp) : StateManager :=
  ops.foldl applyOp m

/-! ## Lemmas about the detector -/

/-- Every detection kept by `process_outputs` has confidence strictly above
the configured threshold. -/
theorem process_outputs_mem_confidence (cfg : DetectorConfig) (rows : List RawRow)
    (frame : Frame) (ds : List Detection) (d : Detection)
    (hok : process_outputs cfg rows frame = .ok ds) (hd : d ∈ ds) :
    cfg.confidence_threshold < d.confidence := by
  induction rows generalizing ds with
  | nil =>
    simp only [process_outputs] at hok
    cases hok
    simp at hd
  | cons r rest ih =>
    simp only [process_outputs] at hok
    by_cases hconf : r.objectness > cfg.confidence_threshold
    · rw [if_pos hconf] at hok
      cases hcn : get_class_name cfg r.class_id with
      | error e => rw [hcn] at hok; cases hok
      | ok cname =>
        rw [hcn] at hok
        cases hrest : process_outputs cfg rest frame with
        | error e => rw [hrest] at hok; cases hok
        | ok ds' =>
          rw [hrest] at hok
          cases hok
          rcases List.mem_cons.mp hd with h | h
          · subst h; exact hconf
          · exact ih ds' hrest h
    · rw [if_neg hconf] at hok
      exact ih ds hok hd

/-- Every pooled detection has confidence strictly above the threshold. -/
theorem pool_outputs_mem_confidence (cfg : DetectorConfig) (frame : Frame)
    (outs : List (List RawRow)) (ds : List Detection) (d : Detection)
    (hok : pool_outputs cfg frame outs = .ok ds) (hd : d ∈ ds) :
    cfg.confidence_threshold < d.confidence := by
  induction outs generalizing ds with
  | nil =>
    simp only [pool_outputs] at hok
    cases hok
    simp at hd
  | cons o os ih =>
    simp only [pool_outputs] at hok
    cases h1 : process_outputs cfg o frame with
    | error e => rw [h1] at hok; cases hok
    | ok ds1 =>
      rw [h1] at hok
      cases h2 : pool_outputs cfg frame os with
      | error e => rw [h2] at hok; cases hok
      | ok ds2 =>
        rw [h2] at hok
        cases hok
        rcases List.mem_append.mp hd with h | h
        · exact process_outputs_mem_confidence cfg o frame ds1 d h1 h
        · exact ih ds2 h2 h

/-- `insertDesc` permutes its input with the new element in front. -/
theorem insertDesc_perm (d : Detection) (l : List Detection) :
    (insertDesc d l).Perm (d :: l) := by
  induction l with
  | nil => simp [insertDesc]
  | cons e rest ih =>
    simp only [insertDesc]
    by_cases h : e.confidence ≤ d.confidence
    · rw [if_pos h]
    · rw [if_neg h]
      exact (ih.cons e).trans (List.Perm.swap d e rest)

/-- Sorting by descending confidence permutes the input. -/
theorem sortByConfDesc_perm (l : List Detection) : (sortByConfDesc l).Perm l := by
  induction l with
  | nil => simp [sortByConfDesc]
  | cons d rest ih =>
    exact (insertDesc_perm d (sortByConfDesc rest)).trans (ih.cons d)

/-- The greedy suppression pass only outputs elements of its input. -/
theorem nmsGreedy_subset (thr : ℚ) (l : List Detection) :
    ∀ d ∈ nmsGreedy thr l, d ∈ l := by
  generalize hn : l.length = n
  induction n using Nat.strong_induction_on generalizing l with
  | _ n ih =>
    cases l with
    | nil => simp [nmsGreedy]
    | cons d rest =>
      intro e he
      rw [nmsGreedy] at he
      rcases List.mem_cons.mp he with h | h
      · simp [h]
      · have hlen : (rest.filter (fun x => iou d.bbox x.bbox < thr)).length < n := by
          subst hn
          simp only [List.length_cons]
          exact Nat.lt_succ_of_le (List.length_filter_le _ _)
        have := ih _ hlen _ rfl e h
        exact List.mem_cons_of_mem d (List.mem_of_mem_filter this)

/-- The greedy suppression pass never lengthens the list. -/
theorem nmsGreedy_length_le (thr : ℚ) (l : List Detection) :
    (nmsGreedy thr l).length ≤ l.length := by
  generalize hn : l.length = n
  induction n using Nat.strong_induction_on generalizing l with
  | _ n ih =>
    cases l with
    | nil => simp [nmsGreedy]
    | cons d rest =>
      rw [nmsGreedy]
      subst hn
      simp only [List.length_cons]
      have hfl : (rest.filter (fun x => iou d.bbox x.bbox < thr)).length ≤ rest.length :=
        List.length_filter_le _ _
      have := ih (rest.filter (fun x => iou d.bbox x.bbox < thr)).length
        (by simpa [Nat.lt_succ_iff] using hfl) _ rfl
      omega

/-- Inserting into a list sorted by descending confidence keeps it sorted. -/
theorem insertDesc_pairwise (d : Detection) (l : List Detection)
    (h : l.Pairwise (fun a b => b.confidence ≤ a.confidence)) :
    (insertDesc d l).Pairwise (fun a b => b.confidence ≤ a.confidence) := by
  induction l with
  | nil => simp [insertDesc]
  | cons e rest ih =>
    simp only [insertDesc]
    rcases List.pairwise_cons.mp h with ⟨he, hrest⟩
    by_cases hle : e.confidence ≤ d.confidence
    · rw [if_pos hle]
      refine List.pairwise_cons.mpr ⟨?_, h⟩
      intro x hx
      rcases List.mem_cons.mp hx with hx | hx
      · subst hx; exact hle
      · exact le_trans (he x hx) hle
    · rw [if_neg hle]
      refine List.pairwise_cons.mpr ⟨?_, ih hrest⟩
      intro x hx
      have hx' : x ∈ d :: rest := (insertDesc_perm d rest).mem_iff.mp hx
      rcases List.mem_cons.mp hx' with hx' | hx'
      · subst hx'; exact le_of_lt (lt_of_not_le hle)
      · exact he x hx'

/-- `sortByConfDesc` produces a list sorted by descending confidence. -/
theorem sortByConfDesc_pairwise (l : List Detection) :
    (sortByConfDesc l).Pairwise (fun a b => b.confidence ≤ a.confidence) := by
  induction l with
  | nil => simp [sortByConfDesc]
  | cons d rest ih => exact insertDesc_pairwise d (sortByConfDesc rest) ih

/-- The greedy suppression pass preserves descending-confidence sortedness. -/
theorem nmsGreedy_pairwise (thr : ℚ) (l : List Detection)
    (h : l.Pairwise (fun a b => b.confidence ≤ a.confidence)) :
    (nmsGreedy thr l).Pairwise (fun a b => b.confidence ≤ a.confidence) := by
  generalize hn : l.length = n
  induction n using Nat.strong_induction_on generalizing l with
  | _ n ih =>
    cases l with
    | nil => simp [nmsGreedy]
    | cons d rest =>
      rw [nmsGreedy]
      rcases List.pairwise_cons.mp h with ⟨hd, hrest⟩
      have hfilter : (rest.filter (fun x => iou d.bbox x.bbox < thr)).Pairwise
          (fun a b => b.confidence ≤ a.confidence) :=
        hrest.sublist (List.filter_sublist rest)
      have hlen : (rest.filter (fun x => iou d.bbox x.bbox < thr)).length < n := by
        subst hn
        simp only [List.length_cons]
        exact Nat.lt_succ_of_le (List.length_filter_le _ _)
      refine List.pairwise_cons.mpr ⟨?_, ih _ hlen _ hfilter rfl⟩
      intro x hx
      have hx' := nmsGreedy_subset thr _ x hx
      exact hd x (List.mem_of_mem_filter hx')

/-- Every element of the suppression output is an element of its input. -/
theorem apply_nms_mem (cfg : DetectorConfig) (dets : List Detection) :
    ∀ d ∈ apply_nms cfg dets, d ∈ dets := by
  intro d hd
  simp only [apply_nms] at hd
  by_cases hemp : dets.isEmpty
  · rw [if_pos hemp] at hd; exact hd
  · rw [if_neg hemp] at hd
    have h1 := nmsGreedy_subset cfg.nms_threshold (sortByConfDesc dets) d hd
    exact (sortByConfDesc_perm dets).mem_iff.mp h1

/-- The suppression output is never longer than its input. -/
theorem apply_nms_length_le (cfg : DetectorConfig) (dets : List Detection) :
    (apply_nms cfg dets).length ≤ dets.length := by
  simp only [apply_nms]
  by_cases hemp : dets.isEmpty
  · rw [if_pos hemp]
  · rw [if_neg hemp]
    calc (nms_boxes cfg.confidence_threshold cfg.nms_threshold dets).length
        ≤ (sortByConfDesc dets).length := nmsGreedy_length_le _ _
      _ = dets.length := (sortByConfDesc_perm dets).length_eq

/-- The suppression output is sorted by descending confidence. -/
theorem apply_nms_pairwise (cfg : DetectorConfig) (dets : List Detection) :
    (apply_nms cfg dets).Pairwise (fun a b => b.confidence ≤ a.confidence) := by
  simp only [apply_nms]
  by_cases hemp : dets.isEmpty
  · rw [if_pos hemp]
    rw [List.isEmpty_iff] at hemp
    subst hemp
    simp
  · rw [if_neg hemp]
    exact nmsGreedy_pairwise cfg.nms_threshold (sortByConfDesc dets)
      (sortByConfDesc_pairwise dets)

/-! ## Claim theorems about the detector -/

/-- C1: every detection in a successful `detect` result has confidence at
least `confidence_threshold` (rows are kept only when their objectness
strictly exceeds the threshold, and suppression only selects among them). -/
theorem detect_confidence_ge_threshold (cfg : DetectorConfig) (frame : Frame)
    (model_outputs : List (List RawRow)) (ds : List Detection)
    (hok : detect cfg frame model_outputs = .ok ds) :
    ∀ d ∈ ds, cfg.confidence_threshold ≤ d.confidence := by
  intro d hd
  simp only [detect] at hok
  cases hpool : pool_outputs cfg frame model_outputs with
  | error e => rw [hpool] at hok; cases hok
  | ok all =>
    rw [hpool] at hok
    cases hok
    have hmem := apply_nms_mem cfg all d hd
    exact le_of_lt (pool_outputs_mem_confidence cfg frame model_outputs all d hpool hmem)

/-- A concrete detector configuration: threshold 1/2, NMS threshold 2/5, one
model knowing the classes person and car. -/
def cfgW : DetectorConfig :=
  { confidence_threshold := 1/2
  , nms_threshold := 2/5
  , model_configs := [{ name := "yolo", class_names := ["person", "car"] }] }

/-- A concrete frame. -/
def frameW : Frame :=
  { id := 7, timestamp := 1000, data := 0
  , metadata := { width := 640, height := 480, channels := 3
                , format := "BGR", source := "cam0" } }

/-- One model's raw output: a single row above threshold. -/
def rowsW : List RawRow :=
  [{ x := 10, y := 20, w := 30, h := 40, objectness := 9/10, class_id := 0 }]

/-- The detection that `detect cfgW frameW [rowsW]` returns. -/
def detW : Detection :=
  { bbox := { x := 10, y := 20, width := 30, height := 40 }
  , class_id := 0, class_name := "person", confidence := 9/10
  , frame_id := 7, timestamp := 1000 }

/-- Witness for C1: on the concrete input, `detect` succeeds and the returned
detection's confidence 9/10 is at least the threshold 1/2. -/
theorem detect_confidence_ge_threshold_witness :
    cfgW.confidence_threshold ≤ detW.confidence :=
  detect_confidence_ge_threshold cfgW frameW [rowsW] [detW]
    (by norm_num [detect, pool_outputs, process_outputs, get_class_name,
              apply_nms, nms_boxes, sortByConfDesc, insertDesc, nmsGreedy, cfgW,
              frameW, rowsW, detW])
    detW (by simp)

/-- C5: the suppression step `apply_nms` returns a subset of its input — every
output detection is an element of the input list, and the output size is at
most the input size. -/
theorem apply_nms_subset_of_input (cfg : DetectorConfig) (dets : List Detection) :
    (∀ d ∈ apply_nms cfg dets, d ∈ dets) ∧
      (apply_nms cfg dets).length ≤ dets.length :=
  ⟨apply_nms_mem cfg dets, apply_nms_length_le cfg dets⟩

/-- C8: every successful `detect` result is sorted in descending order of
confidence (pooled rows are sorted and greedily suppressed in that order). -/
theorem detect_sorted_desc (cfg : DetectorConfig) (frame : Frame)
    (model_outputs : List (List RawRow)) (ds : List Detection)
    (hok : detect cfg frame model_outputs = .ok ds) :
    ds.Pairwise (fun a b => b.confidence ≤ a.confidence) := by
  simp only [detect] at hok
  cases hpool : pool_outputs cfg frame model_outputs with
  | error e => rw [hpool] at hok; cases hok
  | ok all =>
    rw [hpool] at hok
    cases hok
    exact apply_nms_pairwise cfg all

/-- A second raw-output row, lower confidence, far from the first row's box. -/
def rowsW2 : List RawRow :=
  [{ x := 500, y := 600, w := 30, h := 40, objectness := 3/5, class_id := 1 }]

/-- The lower-confidence detection returned for `rowsW2`. -/
def detW2 : Detection :=
  { bbox := { x := 500, y := 600, width := 30, height := 40 }
  , class_id := 1, class_name := "car", confidence := 3/5
  , frame_id := 7, timestamp := 1000 }

/-- Witness for C8: pooling two models' rows (confidences 3/5 then 9/10, far
apart), `detect` succeeds and its output comes back sorted descending. -/
theorem detect_sorted_desc_witness :
    ([detW, detW2] : List Detection).Pairwise (fun a b => b.confidence ≤ a.confidence) :=
  detect_sorted_desc cfgW frameW [rowsW2, rowsW] [detW, detW2]
    (by norm_num [detect, pool_outputs, process_outputs, get_class_name,
              apply_nms, nms_boxes, sortByConfDesc, insertDesc, nmsGreedy, iou,
              interArea, cfgW, frameW, rowsW, rowsW2, detW, detW2])

/-- C9: the index-consumption step of `apply_nms` indexes the input vector
with the routine's returned indices unchecked; it is panic-free exactly when
every returned index `i` satisfies `0 ≤ i < len` — under that precondition
the selection succeeds, and when it is violated the selection fails. -/
theorem apply_nms_select_inbounds_iff (dets : List Detection) (indices : List Int) :
    (∀ i ∈ indices, 0 ≤ i ∧ i < (dets.length : Int)) ↔
      (apply_nms_select dets indices).isSome := by
  induction indices with
  | nil => simp [apply_nms_select]
  | cons i rest ih =>
    simp only [apply_nms_select]
    constructor
    · intro h
      rcases h i (List.mem_cons_self i rest) with ⟨h0, hlt⟩
      have hlt' : i.toNat < dets.length := by omega
      rw [if_pos h0, List.getElem?_eq_getElem hlt']
      have hrest : (apply_nms_select dets rest).isSome :=
        ih.mp (fun j hj => h j (List.mem_cons_of_mem i hj))
      cases hr : apply_nms_select dets rest with
      | none => rw [hr] at hrest; cases hrest
      | some ds => simp [hr]
    · intro h
      by_cases h0 : 0 ≤ i
      · rw [if_pos h0] at h
        cases hg : dets[i.toNat]? with
        | none => rw [hg] at h; cases h
        | some d =>
          rw [hg] at h
          cases hr : apply_nms_select dets rest with
          | none => rw [hr] at h; cases h
          | some ds =>
            have hlt : i.toNat < dets.length := by
              by_contra hge
              rw [List.getElem?_eq_none (Nat.le_of_not_lt hge)] at hg
              cases hg
            intro j hj
            rcases List.mem_cons.mp hj with hj | hj
            · subst hj; constructor
              · exact h0
              · omega
            · exact (ih.mpr (by rw [hr]; simp)) j hj
      · rw [if_neg h0] at h
        cases h

/-! ## Claim theorems about the pipeline worker -/

/-- Change only a stage's `enabled` flag. -/
def setEnabled (b : Bool) (s : StageRt) : StageRt :=
  { s with config := { s.config with enabled := b } }

/-- C3 (amended): the worker loop never consults `enabled` — rewriting every
stage's `enabled` flag changes nothing about how an item is processed, so a
disabled stage is invoked exactly like an enabled one. -/
theorem process_item_ignores_enabled (b : Bool) (stages : List StageRt)
    (st : PipeExecState) (data : PipelineData) (now : Nat) :
    process_item (stages.map (setEnabled b)) st data now =
      process_item stages st data now := by
  induction stages generalizing st data with
  | nil => simp [process_item]
  | cons s rest ih =>
    simp only [List.map_cons, process_item, setEnabled]
    cases s.behavior (getCount st.counts s.config.name) data with
    | ok d => simp [ih]
    | error e => simp

/-- A sample stage name. -/
def disName : String := "Analysis"

/-- A disabled Analysis stage whose behaviour stamps the metadata; built by
`create_stage` like any other stage. -/
def disStage : StageRt :=
  { config := { name := disName, stage_type := .Analysis, enabled := false
              , params := [] }
  , behavior := fun _ d => .ok { d with timestamp := d.timestamp + 1 } }

/-- A concrete item entering the pipeline. -/
def dataW : PipelineData :=
  { frame := frameW, detections := [], analysis := none
  , metadata := [], timestamp := 50 }

/-- Counterexample to C3 as stated: running the pipeline chain over an item
with a single stage whose `enabled` flag is false, the disabled stage IS
invoked (its invocation count ends at 1 and its metrics record one processed
item) and the item does NOT pass through unchanged. -/
theorem disabled_stage_invoked_counterexample :
    getCount (process_item [disStage] pipeExecInit dataW 60).2.counts disName = 1 ∧
      (process_item [disStage] pipeExecInit dataW 60).2.metrics =
        [(disName, { processed := 1, errors := 0, avg_processing_time := 0
                   , last_processed := 60 })] ∧
      (process_item [disStage] pipeExecInit dataW 60).1 ≠ some dataW := by
  refine ⟨rfl, rfl, ?_⟩
  simp [process_item, disStage, pipeExecInit, update_metrics, dataW, getCount,
        bumpCount, disName]

/-- The PreProcess stage name of the retry scenario. -/
def preName : String := "PreProcess"

/-- The Detection stage name of the retry scenario. -/
def detName : String := "Detection"

/-- The `StageConfig` of the scenario's PreProcess stage. -/
def preCfg : StageConfig :=
  { name := preName, stage_type := .PreProcess, enabled := true, params := [] }

/-- The `StageConfig` of the scenario's Detection stage. -/
def detCfg : StageConfig :=
  { name := detName, stage_type := .Detection, enabled := true, params := [] }

/-- A Detection-stage behaviour that fails on its first two invocations and
succeeds from the third on. -/
def failTwiceThenOk : Nat → PipelineData → Except StageErr PipelineData :=
  fun n d => if 2 ≤ n then .ok d else .error { message := "detector backend down" }

/-- The identity PreProcess behaviour. -/
def passThrough : Nat → PipelineData → Except StageErr PipelineData :=
  fun _ d => .ok d

/-- Counterexample to C2 as stated: stages [PreProcess, Detection] with a
Detection stage that fails twice then succeeds (and `retry_count = 2` in the
config, which the worker never reads).  The worker makes exactly one attempt:
the item is dropped (nothing is emitted) and the Detection metrics end as
processed = 0, errors = 1 — not processed = 1, errors = 2 as claimed. -/
theorem no_retry_counterexample :
    process_item [{ config := preCfg, behavior := passThrough },
                  { config := detCfg, behavior := failTwiceThenOk }]
        pipeExecInit dataW 60 =
      (none,
        { metrics := [(preName, { processed := 1, errors := 0
                                , avg_processing_time := 0, last_processed := 60 }),
                      (detName, { processed := 0, errors := 1
                                , avg_processing_time := 0, last_processed := 60 })]
        , counts := [(preName, 1), (detName, 1)] }) := by
  simp [process_item, passThrough, failTwiceThenOk, pipeExecInit, update_metrics,
        getCount, bumpCount, preCfg, detCfg, preName, detName]

/-- C2 (amended): on a stage failure the worker performs no retry —
`retry_count` and `timeout_ms` are never read.  For any behaviours where
PreProcess succeeds and Detection fails on its first invocation, processing
one item invokes each stage exactly once, increments PreProcess `processed`
and Detection `errors` by one, and drops the item (nothing is emitted). -/
theorem stage_failure_drops_item_no_retry
    (b1 b2 : Nat → PipelineData → Except StageErr PipelineData)
    (d0 d1 : PipelineData) (err : StageErr) (now : Nat)
    (h1 : b1 0 d0 = .ok d1) (h2 : b2 0 d1 = .error err) :
    process_item [{ config := preCfg, behavior := b1 },
                  { config := detCfg, behavior := b2 }]
        pipeExecInit d0 now =
      (none,
        { metrics := [(preName, { processed := 1, errors := 0
                                , avg_processing_time := 0, last_processed := now }),
                      (detName, { processed := 0, errors := 1
                                , avg_processing_time := 0, last_processed := now })]
        , counts := [(preName, 1), (detName, 1)] }) := by
  simp [process_item, pipeExecInit, update_metrics, getCount, bumpCount,
        preCfg, detCfg, preName, detName, h1, h2]

/-- Witness for the amended C2 theorem: instantiated with the pass-through
PreProcess behaviour and the fails-twice-then-succeeds Detection behaviour. -/
theorem stage_failure_drops_item_no_retry_witness :
    process_item [{ config := preCfg, behavior := passThrough },
                  { config := detCfg, behavior := failTwiceThenOk }]
        pipeExecInit dataW 33 =
      (none,
        { metrics := [(preName, { processed := 1, errors := 0
                                , avg_processing_time := 0, last_processed := 33 }),
                      (detName, { processed := 0, errors := 1
                                , avg_processing_time := 0, last_processed := 33 })]
        , counts := [(preName, 1), (detName, 1)] }) :=
  stage_failure_drops_item_no_retry passThrough failTwiceThenOk dataW dataW
    { message := "detector backend down" } 33 rfl rfl

/-! ## Claim theorems about the Engine/Pipeline lifecycle -/

/-- C6: for Engine and Pipeline alike, `start` invoked when already running
returns success and leaves the state unchanged without spawning workers, and
`stop` invoked when already stopped returns success and changes nothing. -/
theorem start_stop_idempotent (est : EngineState) (pst : PipelineState) (now : Nat) :
    (est.is_running = true → Engine.start est now = (est, false)) ∧
      (est.is_running = false → Engine.stop est = (est, false)) ∧
      (pst.is_running = true → Pipeline.start pst now = (pst, false)) ∧
      (pst.is_running = false → Pipeline.stop pst = (pst, false)) := by
  refine ⟨fun h => ?_, fun h => ?_, fun h => ?_, fun h => ?_⟩ <;>
    simp [Engine.start, Engine.stop, Pipeline.start, Pipeline.stop, h]

/-- A concrete running engine state with nontrivial counters. -/
def estRunW : EngineState :=
  { is_running := true, frames_processed := 12, error_count := 3
  , last_error := some "inference backend failure", start_time := 4 }

/-- A concrete running pipeline state. -/
def pstRunW : PipelineState :=
  { is_running := true, processed_frames := 9, errors := 1
  , stage_metrics := [], start_time := 2 }

/-- Witness for C6: on concrete running states a second `start` returns them
untouched, and on the freshly constructed (stopped) states `stop` is a no-op
— including `stop` before any `start`. -/
theorem start_stop_idempotent_witness :
    Engine.start estRunW 99 = (estRunW, false) ∧
      Engine.stop (engineStateInit 0) = (engineStateInit 0, false) ∧
      Pipeline.start pstRunW 99 = (pstRunW, false) ∧
      Pipeline.stop (pipelineStateInit 0) = (pipelineStateInit 0, false) :=
  ⟨(start_stop_idempotent estRunW pstRunW 99).1 rfl,
   (start_stop_idempotent (engineStateInit 0) pstRunW 99).2.1 rfl,
   (start_stop_idempotent estRunW pstRunW 99).2.2.1 rfl,
   (start_stop_idempotent estRunW (pipelineStateInit 0) 99).2.2.2 rfl⟩

/-! ## Claim theorems about the engine worker loop -/

/-- C7 (amended): the engine worker loop attempts every frame it receives —
a failing frame is only logged and never terminates the worker — but it
leaves the shared engine state completely untouched: `error_count` is not
incremented and `last_error` is not recorded, on any outcome. -/
theorem engine_worker_continues_but_state_untouched
    (proc : Frame → Except String ProcessingResult) (frames : List Frame)
    (st : EngineState) :
    (engine_worker_loop proc frames st).state = st ∧
      (engine_worker_loop proc frames st).attempts = frames.length := by
  induction frames with
  | nil => simp [engine_worker_loop]
  | cons f rest ih =>
    simp only [engine_worker_loop]
    cases proc f with
    | ok r => simpa using ih
    | error e => simpa using ih

/-- A frame processor that always fails. -/
def alwaysFailProc : Frame → Except String ProcessingResult :=
  fun _ => .error "inference backend failure"

/-- Counterexample to C7 as stated: after the worker processes a frame whose
processing fails, `error_count` is still 0 and `last_error` is still `none`
(the loop does continue — the failure is only logged). -/
theorem engine_worker_no_error_recording_counterexample :
    (engine_worker_loop alwaysFailProc [frameW] (engineStateInit 0)).state.error_count = 0 ∧
      (engine_worker_loop alwaysFailProc [frameW] (engineStateInit 0)).state.last_error
        = none ∧
      (engine_worker_loop alwaysFailProc [frameW] (engineStateInit 0)).attempts = 1 := by
  refine ⟨rfl, rfl, rfl⟩

/-! ## Claim theorems about `Engine::process_frame` -/

/-- C10: `Engine::process_frame` indeed checks no running-state precondition —
but on any engine built by `Engine::new` the send fails at once with a
queue-closed error, whatever the engine state and however empty the queue,
because `new` never stores the frame-queue receiver and so drops it.  The
claimed successful enqueue is the code slip this theorem pins down. -/
theorem process_frame_fails_queue_closed (cfg : EngineConfig) (now : Nat) (f : Frame) :
    Engine.process_frame (Engine.new cfg now) f = .closed := by
  simp [Engine.process_frame, Engine.new, Channel.send]


/-! ## Lemmas about the state manager -/

/-- The history trim loop always lands at or under the bound. -/
theorem trimHistory_length_le (hs : List StateSnapshot) (size : Nat) :
    (trimHistory hs size).length ≤ size := by
  generalize hn : hs.length = n
  induction n using Nat.strong_induction_on generalizing hs with
  | _ n ih =>
    rw [trimHistory]
    by_cases h : size < hs.length
    · rw [if_pos h]
      cases hs with
      | nil => simp at h
      | cons x xs =>
        subst hn
        exact ih xs.length (by simp) xs rfl
    · rw [if_neg h]
      omega

/-- One `record_error` call, starting within bound, leaves the error history
equal to the pushed list with its overflow dropped from the front. -/
theorem record_error_history (m : StateManager) (e : ErrorInfo)
    (hle : m.state.error_state.error_history.length ≤ 100) :
    (record_error m e).state.error_state.error_history =
      (m.state.error_state.error_history ++ [e]).drop
        ((m.state.error_state.error_history.length + 1) - 100) := by
  simp only [record_error]
  by_cases h : 100 < (m.state.error_state.error_history ++ [e]).length
  · rw [if_pos h]
    simp only [List.length_append, List.length_singleton] at h ⊢
    have heq : m.state.error_state.error_history.length + 1 - 100 = 1 := by omega
    rw [heq]
  · rw [if_neg h]
    simp only [List.length_append, List.length_singleton] at h
    have heq : m.state.error_state.error_history.length + 1 - 100 = 0 := by omega
    rw [heq, List.drop_zero]

/-- `record_error` bumps the count by one, leaves the snapshot history and
configuration alone, and keeps the error history within its bound. -/
theorem record_error_shape (m : StateManager) (e : ErrorInfo) :
    (record_error m e).state.error_state.error_count
        = m.state.error_state.error_count + 1 ∧
      (record_error m e).history = m.history ∧
      (record_error m e).config = m.config ∧
      (m.state.error_state.error_history.length ≤ 100 →
        (record_error m e).state.error_state.error_history.length ≤ 100) := by
  refine ⟨?_, rfl, rfl, fun hle => ?_⟩
  · simp only [record_error]
    split <;> rfl
  · simp only [record_error]
    by_cases h : 100 < (m.state.error_state.error_history ++ [e]).length
    · rw [if_pos h]
      simp only [List.length_drop, List.length_append, List.length_singleton]
      omega
    · rw [if_neg h]
      simp only [List.length_append, List.length_singleton] at h ⊢
      omega

/-- Folding `record_error` over a list of errors, starting within bound: the
final error history is the concatenation with its overflow dropped from the
front (oldest evicted first), and the count grows by the number of calls. -/
theorem applyOps_recordErrors (errs : List ErrorInfo) (m : StateManager)
    (hle : m.state.error_state.error_history.length ≤ 100) :
    (applyOps m (errs.map .recordError)).state.error_state.error_history =
        (m.state.error_state.error_history ++ errs).drop
          ((m.state.error_state.error_history.length + errs.length) - 100) ∧
      (applyOps m (errs.map .recordError)).state.error_state.error_count
        = m.state.error_state.error_count + errs.length := by
  induction errs generalizing m with
  | nil =>
    refine ⟨?_, by simp [applyOps]⟩
    have h0 : m.state.error_state.error_history.length + ([] : List ErrorInfo).length
        - 100 = 0 := by
      simp only [List.length_nil]
      omega
    rw [h0, List.drop_zero]
    simp [applyOps]
  | cons e rest ih =>
    have hstep := record_error_history m e hle
    have hshape := record_error_shape m e
    have hle' : (record_error m e).state.error_state.error_history.length ≤ 100 :=
      hshape.2.2.2 hle
    have happ : applyOps m ((e :: rest).map .recordError)
        = applyOps (record_error m e) (rest.map .recordError) := by
      simp only [List.map_cons, applyOps, List.foldl_cons, applyOp]
    rcases ih (record_error m e) hle' with ⟨ihh, ihc⟩
    constructor
    · rw [happ, ihh, hstep]
      have hlenH : ((m.state.error_state.error_history ++ [e]).drop
          ((m.state.error_state.error_history.length + 1) - 100)).length
          = (m.state.error_state.error_history.length + 1)
            - ((m.state.error_state.error_history.length + 1) - 100) := by
        simp [List.length_drop]
      rw [hlenH]
      have hk : (m.state.error_state.error_history.length + 1) - 100
          ≤ (m.state.error_state.error_history ++ [e]).length := by
        simp only [List.length_append, List.length_singleton]
        omega
      rw [← List.drop_append_of_le_length hk, List.drop_drop]
      have harr : m.state.error_state.error_history ++ [e] ++ rest
          = m.state.error_state.error_history ++ (e :: rest) := by
        simp
      rw [harr]
      congr 1
      simp only [List.length_cons]
      omega
    · rw [happ, ihc, hshape.1]
      simp only [List.length_cons]
      omega

/-- Every single state-manager operation leaves the configuration alone. -/
theorem applyOp_config (m : StateManager) (op : StateOp) :
    (applyOp m op).config = m.config := by
  cases op with
  | updateEngine es now => rfl
  | updatePipeline ps => rfl
  | updateResource rs => rfl
  | recordError e => exact (record_error_shape m e).2.2.1
  | tick sampled => rfl

/-- The bounded-history invariant: snapshot history within the configured
bound, error history within 100. -/
def HistInv (m : StateManager) : Prop :=
  m.history.length ≤ m.config.history_size ∧
    m.state.error_state.error_history.length ≤ 100

/-- Every single state-manager operation preserves the bounded-history
invariant. -/
theorem applyOp_preserves (m : StateManager) (op : StateOp) (h : HistInv m) :
    HistInv (applyOp m op) := by
  rcases h with ⟨hh, he⟩
  cases op with
  | updateEngine es now =>
    refine ⟨?_, he⟩
    simp only [applyOp, update_engine_state, take_snapshot]
    exact trimHistory_length_le _ _
  | updatePipeline ps => exact ⟨hh, he⟩
  | updateResource rs => exact ⟨hh, he⟩
  | recordError e =>
    have hshape := record_error_shape m e
    constructor
    · show (record_error m e).history.length ≤ (record_error m e).config.history_size
      rw [hshape.2.1, hshape.2.2.1]
      exact hh
    · exact hshape.2.2.2 he
  | tick sampled =>
    refine ⟨hh, ?_⟩
    simp only [applyOp, monitorTick]
    split <;> exact he

/-- Any operation sequence preserves the bounded-history invariant and the
configuration. -/
theorem applyOps_preserves (ops : List StateOp) (m : StateManager) (h : HistInv m) :
    HistInv (applyOps m ops) ∧ (applyOps m ops).config = m.config := by
  induction ops generalizing m with
  | nil => exact ⟨h, rfl⟩
  | cons op rest ih =>
    have hstep := applyOp_preserves m op h
    have heq : applyOps m (op :: rest) = applyOps (applyOp m op) rest := by
      simp [applyOps]
    rw [heq]
    rcases ih (applyOp m op) hstep with ⟨h1, h2⟩
    exact ⟨h1, h2.trans (applyOp_config m op)⟩

/-- C4: from a fresh `StateManager`, after any operation sequence the snapshot
history never exceeds `history_size` and the error history never exceeds 100
entries; and 105 `record_error` calls leave exactly the most recent 100
errors (the oldest five evicted first) with `error_count = 105`. -/
theorem state_histories_bounded (cfg : StateConfig) (now : Nat) (ops : List StateOp) :
    ((applyOps (StateManager.new cfg now) ops).history.length ≤ cfg.history_size ∧
      (applyOps (StateManager.new cfg now) ops).state.error_state.error_history.length
        ≤ 100) ∧
    ∀ errs : List ErrorInfo, errs.length = 105 →
      (applyOps (StateManager.new cfg now)
          (errs.map .recordError)).state.error_state.error_history = errs.drop 5 ∧
        (applyOps (StateManager.new cfg now)
          (errs.map .recordError)).state.error_state.error_count = 105 := by
  constructor
  · have hinv : HistInv (StateManager.new cfg now) := by
      constructor <;> simp [StateManager.new, systemStateInit]
    rcases applyOps_preserves ops (StateManager.new cfg now) hinv with ⟨⟨h1, h2⟩, hcfg⟩
    have : (StateManager.new cfg now).config = cfg := rfl
    rw [this] at hcfg
    rw [hcfg] at h1
    exact ⟨h1, h2⟩
  · intro errs hlen
    rcases applyOps_recordErrors errs (StateManager.new cfg now)
      (by simp [StateManager.new, systemStateInit]) with ⟨hh, hc⟩
    constructor
    · rw [hh]
      simp [StateManager.new, systemStateInit, hlen]
    · rw [hc]
      simp [StateManager.new, systemStateInit, hlen]

/-- Concrete state configuration for the C4 witness. -/
def cfgS : StateConfig :=
  { history_size := 3, snapshot_interval := 5, persist_state := false
  , state_file := "state.json" }

/-- 105 distinct errors, timestamps 0 to 104. -/
def errs105 : List ErrorInfo :=
  (List.range 105).map (fun i =>
    { timestamp := i, error_type := "InferenceError"
    , message := "dropped frame", context := [] })

/-- Witness for C4: with `history_size = 3`, the fresh manager satisfies both
bounds, and the 105 concrete `record_error` calls leave exactly the errors
with timestamps 5 to 104 and a count of 105. -/
theorem state_histories_bounded_witness :
    ((applyOps (StateManager.new cfgS 0) []).history.length ≤ cfgS.history_size ∧
      (applyOps (StateManager.new cfgS 0)
        []).state.error_state.error_history.length ≤ 100) ∧
      ((applyOps (StateManager.new cfgS 0)
          (errs105.map .recordError)).state.error_state.error_history
            = errs105.drop 5 ∧
        (applyOps (StateManager.new cfgS 0)
          (errs105.map .recordError)).state.error_state.error_count = 105) :=
  ⟨(state_histories_bounded cfgS 0 []).1,
   (state_histories_bounded cfgS 0 []).2 errs105 (by simp [errs105])⟩
